import Mathlib

deriving instance DecidableEq for Except

/-!
Shallow embedding of `cpu.py`, an instruction-level RV32I emulator.

Machine integers are modelled as `Nat`/`Int` with explicit masking by
`% 2 ^ 32` exactly where the source masks (`& 0xFFFFFFFF` in
`Regfile.__setitem__`).  Python's `>>` on arbitrary integers is floor
division by a power of two, so it is modelled with `Int.fdiv`; Python's
bitwise operators on negative integers use two's-complement semantics,
matching `Int.lor`/`Int.land`/`Int.xor`.  Fallible code (exceptions,
assertion failures) is modelled with `Except`/`Option`; the global
in-place mutation of `regfile`/`memory` is modelled by explicit state
passing, with `step` returning the (possibly unchanged) state alongside
its result so that what an escaping exception leaves behind is visible.
-/

namespace TwitchCore

/-- The fixed base physical address of the flat memory region (`0x80000000`). -/
def MEMBASE : Nat := 0x80000000

/-- The fixed size of the flat memory region (`64k at 0x80000000`, cpu.py line 30). -/
def MEMSIZE : Nat := 0x10000

/-- Index of the program counter in the register file (`PC = 32`, cpu.py line 22). -/
def PC : Nat := 32

/-- `Regfile.__getitem__` (cpu.py lines 15-16): plain indexed read of the
33-entry register list. -/
def rfGet (regs : List Nat) (key : Nat) : Nat := regs.getD key 0

/-- `Regfile.__setitem__` (cpu.py lines 17-20): writes to index 0 are
discarded, every stored value is masked with `& 0xFFFFFFFF`. -/
def rfSet (regs : List Nat) (key : Nat) (value : Int) : List Nat :=
  if key = 0 then regs else regs.set key ((value % (2 ^ 32 : Int)).toNat)

/-- Fresh all-zero register file (`Regfile.__init__`, cpu.py line 14). -/
def resetRegs : List Nat := List.replicate 33 0

/-- Fresh zero-filled 64k memory (`reset`, cpu.py line 30). -/
def resetMemory : List Nat := List.replicate MEMSIZE 0

/-- `ws(dat, addr)` (cpu.py lines 78-83): subtract the base, assert
`addr >= 0 and addr < len(memory)`, then rebuild the buffer as
`memory[:addr] + dat + memory[addr+len(dat):]`.  `none` models the
`AssertionError`. -/
def ws (memory dat : List Nat) (addr : Nat) : Option (List Nat) :=
  if 0 ≤ (addr : Int) - (MEMBASE : Int) ∧ (addr : Int) - (MEMBASE : Int) < memory.length then
    some (memory.take ((addr : Int) - (MEMBASE : Int)).toNat ++ dat ++
          memory.drop (((addr : Int) - (MEMBASE : Int)).toNat + dat.length))
  else none

/-- The two ways `r32` can fail: the explicit `read out of bounds`
exception, or `struct.error` from `struct.unpack("<I", ...)` receiving a
slice shorter than 4 bytes. -/
inductive MemErr
  | oob
  | structError
deriving DecidableEq, Repr

/-- `r32(addr)` (cpu.py lines 85-89): subtract the base, raise if
`addr < 0 or addr >= len(memory)`, then unpack `memory[addr:addr+4]` as a
little-endian 32-bit value.  Python's slice clamps at the end of the
buffer, and `struct.unpack` raises `struct.error` when it receives fewer
than 4 bytes. -/
def r32 (memory : List Nat) (addr : Nat) : Except MemErr Nat :=
  if (addr : Int) - (MEMBASE : Int) < 0 ∨
     (memory.length : Int) ≤ (addr : Int) - (MEMBASE : Int) then
    .error .oob
  else
    let bs := (memory.drop ((addr : Int) - (MEMBASE : Int)).toNat).take 4
    if bs.length = 4 then
      .ok (bs.getD 0 0 + 2 ^ 8 * bs.getD 1 0 + 2 ^ 16 * bs.getD 2 0 + 2 ^ 24 * bs.getD 3 0)
    else
      .error .structError

/-- `sign_extend(x, l)` (cpu.py lines 99-103): if `x >> (l-1) == 1`
return `-((1 << l) - x)` else `x` unchanged.  Python's `>>` on an `int`
is floor division by the power of two. -/
def sign_extend (x : Int) (l : Nat) : Int :=
  if Int.fdiv x (2 ^ (l - 1)) = 1 then -((2 ^ l : Int) - x) else x

/-- The fatal conditions `step` (and its callees) can raise. -/
inductive StepErr
  | oob            -- `read out of bounds` from `r32`
  | structError    -- `struct.error` from `r32`
  | invalidOpcode  -- `ValueError` from `Ops(gibi(6, 0))` on a value not in the enum
  | arithFunct3    -- `write arith funct3 %r` (unreachable: all 8 values are handled)
  | negativeShift  -- `ValueError` from `x << y` / `x >> y` with negative `y`
  | branchFunct3   -- `write %r funct3 %r` in the BRANCH arm
  | csrCrap        -- `write more csr crap` in the SYSTEM arm
  | testFailure    -- `FAILURE IN TEST, PLZ CHECK` from ECALL
deriving DecidableEq, Repr

/-- `arith(funct3, x, y)` (cpu.py lines 105-124).  The `funct3` argument
is the numeric value of the `Funct3` enum member (Python's `Enum` makes
equal-valued members aliases, so comparisons are numeric).  Python
raises `ValueError` on a shift by a negative amount; `x << y` is
`x * 2 ^ y` and `x >> y` is floor division by `2 ^ y`. -/
def arith (funct3 : Nat) (x y : Int) : Except StepErr Int :=
  if funct3 = 0b000 then .ok (x + y)                                   -- ADDI
  else if funct3 = 0b001 then                                          -- SLLI
    if y < 0 then .error .negativeShift else .ok (x * 2 ^ y.toNat)
  else if funct3 = 0b101 then                                          -- SRLI
    if y < 0 then .error .negativeShift else .ok (Int.fdiv x (2 ^ y.toNat))
  else if funct3 = 0b110 then .ok (Int.lor x y)                        -- ORI
  else if funct3 = 0b100 then .ok (Int.xor x y)                        -- XORI
  else if funct3 = 0b111 then .ok (Int.land x y)                       -- ANDI
  else if funct3 = 0b010 then                                          -- SLT
    .ok (if sign_extend x 32 < sign_extend y 32 then 1 else 0)
  else if funct3 = 0b011 then .ok (if x < y then 1 else 0)             -- SLTU
  else .error .arithFunct3

/-- `gibi(s, e)` (cpu.py lines 129-130): `(ins >> e) & ((1 << (s-e+1))-1)`,
the inclusive bit span `[s:e]` of the fetched word. -/
def gibi (ins s e : Nat) : Nat := (ins >>> e) &&& ((1 <<< (s - e + 1)) - 1)

/-- The `Ops` enum (cpu.py lines 34-48). -/
inductive Ops
  | LUI | LOAD | STORE | AUIPC | BRANCH | JAL | JALR | IMM | OP | MISC | SYSTEM
deriving DecidableEq, Repr

/-- `Ops(value)` (cpu.py line 133): maps the 7-bit opcode field to the
enum member, `none` modelling the `ValueError` raised for a value
outside the enumeration. -/
def Ops.decode (v : Nat) : Option Ops :=
  if v = 0b0110111 then some .LUI
  else if v = 0b0000011 then some .LOAD
  else if v = 0b0100011 then some .STORE
  else if v = 0b0010111 then some .AUIPC
  else if v = 0b1100011 then some .BRANCH
  else if v = 0b1101111 then some .JAL
  else if v = 0b1100111 then some .JALR
  else if v = 0b0010011 then some .IMM
  else if v = 0b0110011 then some .OP
  else if v = 0b0001111 then some .MISC
  else if v = 0b1110011 then some .SYSTEM
  else none

/-- The architectural state: 33-entry register list and flat memory. -/
structure State where
  regfile : List Nat
  memory : List Nat
deriving DecidableEq, Repr

/-- The fall-through tail of `step` (cpu.py lines 254-255):
`regfile[PC] += 4; return True`. -/
def advance (s : State) : Except StepErr Bool × State :=
  (.ok true, { s with regfile := rfSet s.regfile PC ((rfGet s.regfile PC : Int) + 4) })

/-- `step()` (cpu.py lines 126-255).  The result is the pair of the
outcome (`.ok true` = `return True` / CONTINUE, `.ok false` =
`return False` / HALT, `.error` = an escaping exception) and the state
after the step; on an exception the state is whatever the mutations so
far left behind (in this code, always the entry state, since every raise
happens before any register write in its branch). -/
def step (s : State) : Except StepErr Bool × State :=
  -- Instruction Fetch
  match r32 s.memory (rfGet s.regfile PC) with
  | .error .oob => (.error .oob, s)
  | .error .structError => (.error .structError, s)
  | .ok ins =>
    -- Instruction Decode
    match Ops.decode (gibi ins 6 0) with
    | none => (.error .invalidOpcode, s)
    | some .JAL =>
      -- J-type instruction
      let rd := gibi ins 11 7
      let offset := sign_extend
        ((gibi ins 32 31 <<< 20) ||| (gibi ins 30 21 <<< 1) |||
         (gibi ins 21 20 <<< 11) ||| (gibi ins 19 12 <<< 12)) 21
      let r1 := rfSet s.regfile rd ((rfGet s.regfile PC : Int) + 4)
      let r2 := rfSet r1 PC ((rfGet r1 PC : Int) + offset)
      (.ok true, { s with regfile := r2 })
    | some .JALR =>
      -- I-type instruction
      let rd := gibi ins 11 7
      let rs1 := gibi ins 19 15
      let imm := sign_extend (gibi ins 31 20) 12
      let r1 := rfSet s.regfile rd ((rfGet s.regfile PC : Int) + 4)
      let r2 := rfSet r1 PC ((rfGet r1 rs1 : Int) + imm)
      (.ok true, { s with regfile := r2 })
    | some .LUI =>
      -- U-type instruction
      let rd := gibi ins 11 7
      let imm := gibi ins 31 12
      advance { s with regfile := rfSet s.regfile rd ((imm <<< 12 : Nat) : Int) }
    | some .AUIPC =>
      -- U-type instruction
      let rd := gibi ins 11 7
      let imm := gibi ins 31 20
      advance { s with regfile := rfSet s.regfile rd ((rfGet s.regfile PC : Int) + imm) }
    | some .OP =>
      -- R-type instruction
      let rd := gibi ins 11 7
      let rs1 := gibi ins 19 15
      let rs2 := gibi ins 24 20
      let funct3 := gibi ins 14 12
      let funct7 := gibi ins 31 25
      if funct3 = 0b000 ∧ funct7 = 0b0100000 then
        -- this is sub
        let r1 := rfSet s.regfile rd ((rfGet s.regfile rs1 : Int) - (rfGet s.regfile rs2 : Int))
        advance { s with regfile := r1 }
      else
        match arith funct3 (rfGet s.regfile rs1) (rfGet s.regfile rs2) with
        | .error e => (.error e, s)
        | .ok v => advance { s with regfile := rfSet s.regfile rd v }
    | some .IMM =>
      -- I-type instruction
      let rd := gibi ins 11 7
      let rs1 := gibi ins 19 15
      let funct3 := gibi ins 14 12
      let imm := sign_extend (gibi ins 31 20) 12
      match arith funct3 (rfGet s.regfile rs1) imm with
      | .error e => (.error e, s)
      | .ok v => advance { s with regfile := rfSet s.regfile rd v }
    | some .BRANCH =>
      -- B-type instruction
      let rs1 := gibi ins 19 15
      let rs2 := gibi ins 24 20
      let funct3 := gibi ins 14 12
      let offset := sign_extend
        ((gibi ins 32 31 <<< 12) ||| (gibi ins 30 25 <<< 5) |||
         (gibi ins 11 8 <<< 1) ||| (gibi ins 8 7 <<< 11)) 13
      match (if funct3 = 0b000 then .ok (decide (rfGet s.regfile rs1 = rfGet s.regfile rs2))
             else if funct3 = 0b001 then .ok (decide (rfGet s.regfile rs1 ≠ rfGet s.regfile rs2))
             else if funct3 = 0b100 then
               .ok (decide (sign_extend (rfGet s.regfile rs1) 32 <
                            sign_extend (rfGet s.regfile rs2) 32))
             else if funct3 = 0b101 then
               .ok (decide (sign_extend (rfGet s.regfile rs1) 32 ≥
                            sign_extend (rfGet s.regfile rs2) 32))
             else if funct3 = 0b110 then .ok (decide (rfGet s.regfile rs1 < rfGet s.regfile rs2))
             else if funct3 = 0b111 then .ok (decide (rfGet s.regfile rs1 ≥ rfGet s.regfile rs2))
             else .error StepErr.branchFunct3 : Except StepErr Bool) with
      | .error e => (.error e, s)
      | .ok cond =>
        if cond then
          (.ok true, { s with regfile := rfSet s.regfile PC ((rfGet s.regfile PC : Int) + offset) })
        else advance s
    | some .LOAD =>
      -- I-type instruction (cpu.py lines 208-215): the effective address
      -- `regfile[rs1] + sign_extend(gibi(31,20), 12)` is computed and printed,
      -- but no memory access or register write is performed (spec section 4.7)
      advance s
    | some .STORE =>
      -- S-type instruction (cpu.py lines 216-224): the effective address
      -- `regfile[rs1] + sign_extend(gibi(31,25)<<5 | gibi(11,7), 12)` and the
      -- value `regfile[rs2]` are computed and printed; no state effect
      advance s
    | some .MISC =>
      advance s
    | some .SYSTEM =>
      let funct3 := gibi ins 14 12
      let csr := gibi ins 31 20
      if funct3 = 0b010 then         -- CSRRS: observed, not materialized
        advance s
      else if funct3 = 0b001 then    -- CSRRW
        if csr = 3072 then (.ok false, s) else advance s
      else if funct3 = 0b101 then    -- CSRRWI: observed, not materialized
        advance s
      else if funct3 = 0b000 then    -- ECALL
        if rfGet s.regfile 3 > 1 then (.error .testFailure, s) else advance s
      else (.error .csrCrap, s)

/-- The halting instruction: SYSTEM opcode, funct3 = CSRRW (value 1), CSR
field (bits [31:20]) equal to 3072 (cpu.py lines 227-238). -/
def IsHaltIns (ins : Nat) : Prop :=
  Ops.decode (gibi ins 6 0) = some .SYSTEM ∧ gibi ins 14 12 = 1 ∧ gibi ins 31 20 = 3072

instance (ins : Nat) : Decidable (IsHaltIns ins) := by
  unfold IsHaltIns; infer_instance

/-! ### Helper lemmas about the register file and field extraction -/

theorem rfSet_length (regs : List Nat) (k : Nat) (v : Int) :
    (rfSet regs k v).length = regs.length := by
  unfold rfSet; split <;> simp

theorem rfGet_rfSet_self (regs : List Nat) (k : Nat) (v : Int)
    (hk : k ≠ 0) (hlt : k < regs.length) :
    rfGet (rfSet regs k v) k = ((v % (2 ^ 32 : Int)).toNat) := by
  unfold rfGet rfSet
  rw [if_neg hk]
  simp [List.getD_eq_getElem?_getD, List.getElem?_set_self, hlt]

theorem rfGet_rfSet_ne (regs : List Nat) (k j : Nat) (v : Int) (hj : j ≠ k) :
    rfGet (rfSet regs k v) j = rfGet regs j := by
  unfold rfGet rfSet
  split
  · rfl
  · simp [List.getD_eq_getElem?_getD, List.getElem?_set_ne (by omega : k ≠ j)]

/-- The destination-register field `gibi ins 11 7` is a 5-bit value. -/
theorem gibi_11_7_lt (ins : Nat) : gibi ins 11 7 < 32 :=
  Nat.lt_of_le_of_lt Nat.and_le_right (by decide)

/-- The source-register field `gibi ins 19 15` is a 5-bit value. -/
theorem gibi_19_15_lt (ins : Nat) : gibi ins 19 15 < 32 :=
  Nat.lt_of_le_of_lt Nat.and_le_right (by decide)

/-! ### Claims -/

/-- C8: for every register index r in 1..31 (and the PC slot 32, for the
masking part), setting r to V through the register file and then reading r
yields V mod 2^32; a write to r = 0 is discarded, so reading r = 0 (which
is 0 in any register file the emulator ever builds) still yields 0. -/
theorem regfile_set_then_get (regs : List Nat) (r : Nat) (V W : Int)
    (hlen : regs.length = 33) (h1 : 1 ≤ r) (h2 : r ≤ 32) (h0 : rfGet regs 0 = 0) :
    (rfGet (rfSet regs r V) r : Int) = V % 2 ^ 32 ∧ rfGet (rfSet regs 0 W) 0 = 0 := by
  constructor
  · rw [rfGet_rfSet_self regs r V (by omega) (by omega)]
    have hnn : (0 : Int) ≤ V % 2 ^ 32 := Int.emod_nonneg V (by norm_num)
    omega
  · rw [show rfSet regs 0 W = regs from by unfold rfSet; simp]
    exact h0

theorem regfile_set_then_get_witness :
    ((rfGet (rfSet (List.replicate 33 0) 5 (-1)) 5 : Int) = (-1) % 2 ^ 32 ∧
      rfGet (rfSet (List.replicate 33 0) 0 99) 0 = 0) :=
  regfile_set_then_get (List.replicate 33 0) 5 (-1) 99 (by decide) (by decide) (by decide)
    (by decide)

/-- C9: a fetched word whose low 7 bits decode to no enumerated opcode makes
`step` fail with the unsupported-encoding error, and the returned state is
exactly the entry state: no register, including PC, is mutated. -/
theorem step_invalid_opcode (s : State) (ins : Nat)
    (hf : r32 s.memory (rfGet s.regfile PC) = .ok ins)
    (hbad : Ops.decode (gibi ins 6 0) = none) :
    step s = (.error .invalidOpcode, s) := by
  unfold step
  rw [hf]
  dsimp only
  rw [hbad]

theorem step_invalid_opcode_witness :
    step ⟨(List.replicate 33 0).set 32 0x80000000, [0, 0, 0, 0]⟩ =
      (.error .invalidOpcode, ⟨(List.replicate 33 0).set 32 0x80000000, [0, 0, 0, 0]⟩) :=
  step_invalid_opcode ⟨(List.replicate 33 0).set 32 0x80000000, [0, 0, 0, 0]⟩ 0
    (by decide) (by decide)

/-- C1 counterexample: for the AUIPC word 0x00100097 (rd = x1, bits [31:12]
= 0x100, bits [31:20] = 0x001) at PC = 0x80000000, the step writes
PC + 0x001 = 0x80000001 into x1, not PC + 0x100 = 0x80000100 as the claim
(raw 20-bit field from bits [31:12]) predicts. -/
theorem auipc_claim_counterexample :
    rfGet (step ⟨(List.replicate 33 0).set 32 0x80000000,
      [0x97, 0x00, 0x10, 0x00]⟩).2.regfile 1 = 0x80000001 ∧
    (step ⟨(List.replicate 33 0).set 32 0x80000000, [0x97, 0x00, 0x10, 0x00]⟩).1 = .ok true ∧
    gibi 0x00100097 31 12 = 0x100 ∧
    (0x80000001 : Nat) ≠ 0x80000000 + 0x100 := by decide

/-- C2 counterexample: for the JALR word 0x000080E7 (rd = rs1 = x1,
imm = 0) at PC = 0x80000000 with x1 = 100, the claim predicts the new PC to
be the pre-step rs1 value plus imm, i.e. 100; the code writes rd first, so
the new PC is (PC + 4) + 0 = 0x80000004. -/
theorem jalr_claim_counterexample :
    rfGet (step ⟨((List.replicate 33 0).set 1 100).set 32 0x80000000,
      [0xE7, 0x80, 0x00, 0x00]⟩).2.regfile PC = 0x80000004 ∧
    (step ⟨((List.replicate 33 0).set 1 100).set 32 0x80000000,
      [0xE7, 0x80, 0x00, 0x00]⟩).1 = .ok true ∧
    rfGet (((List.replicate 33 0).set 1 100).set 32 0x80000000) (gibi 0x000080E7 19 15) = 100 ∧
    sign_extend (gibi 0x000080E7 31 20) 12 = 0 ∧
    (0x80000004 : Nat) ≠ 100 := by decide

/-- C3 (code bug): for the JAL word 0x002000EF (rd = x1, instruction bit 21
set, bit 12 clear) at PC = 0x80000000, the decoder's `gibi(21, 20) << 11`
term is a two-bit field, so bit 21 is ORed into offset bit 12 as well; the
code computes offset 0x1002 and jumps to 0x80001002, while the J-type
immediate of the claim (`bit20 << 11`) is 2, targeting 0x80000002. -/
theorem jal_decoder_bug :
    rfGet (step ⟨(List.replicate 33 0).set 32 0x80000000,
      [0xEF, 0x00, 0x20, 0x00]⟩).2.regfile PC = 0x80001002 ∧
    (step ⟨(List.replicate 33 0).set 32 0x80000000, [0xEF, 0x00, 0x20, 0x00]⟩).1 = .ok true ∧
    sign_extend ((gibi 0x002000EF 32 31 <<< 20) ||| (gibi 0x002000EF 30 21 <<< 1) |||
      (gibi 0x002000EF 21 20 <<< 11) ||| (gibi 0x002000EF 19 12 <<< 12)) 21 = 0x1002 ∧
    sign_extend ((gibi 0x002000EF 32 31 <<< 20) ||| (gibi 0x002000EF 30 21 <<< 1) |||
      (gibi 0x002000EF 20 20 <<< 11) ||| (gibi 0x002000EF 19 12 <<< 12)) 21 = 2 ∧
    (0x80001002 : Nat) ≠ 0x80000000 + 2 := by decide

/-- C4 (code bug): for the BEQ word 0x00000163 (rs1 = rs2 = x0, so the
condition holds; instruction bit 8 set, bit 31 clear) at PC = 0x80000000,
the decoder's `gibi(8, 7) << 11` term is a two-bit field, so bit 8 is ORed
into offset bit 12 — the sign bit of the 13-bit immediate; the code
computes offset -4094 and branches to 0x7FFFF002, while the B-type
immediate of the claim (`bit7 << 11`) is 2, targeting 0x80000002. -/
theorem branch_decoder_bug :
    rfGet (step ⟨(List.replicate 33 0).set 32 0x80000000,
      [0x63, 0x01, 0x00, 0x00]⟩).2.regfile PC = 0x7FFFF002 ∧
    (step ⟨(List.replicate 33 0).set 32 0x80000000, [0x63, 0x01, 0x00, 0x00]⟩).1 = .ok true ∧
    sign_extend ((gibi 0x00000163 32 31 <<< 12) ||| (gibi 0x00000163 30 25 <<< 5) |||
      (gibi 0x00000163 11 8 <<< 1) ||| (gibi 0x00000163 8 7 <<< 11)) 13 = -4094 ∧
    sign_extend ((gibi 0x00000163 32 31 <<< 12) ||| (gibi 0x00000163 30 25 <<< 5) |||
      (gibi 0x00000163 11 8 <<< 1) ||| (gibi 0x00000163 7 7 <<< 11)) 13 = 2 ∧
    (0x7FFFF002 : Nat) ≠ 0x80000000 + 2 := by decide

/-- Helper: a step that returned HALT left the state untouched and was
fetched as the CSRRW-to-3072 instruction. -/
theorem step_halt_forward (s : State) (h : (step s).1 = Except.ok false) :
    (step s).2 = s ∧ ∃ ins, r32 s.memory (rfGet s.regfile PC) = .ok ins ∧ IsHaltIns ins := by
  unfold step at h ⊢
  rcases hr : r32 s.memory (rfGet s.regfile PC) with e | ins
  · rw [hr] at h
    cases e <;> simp at h
  · rw [hr] at h
    dsimp only at h ⊢
    rcases hop : Ops.decode (gibi ins 6 0) with _ | op
    · rw [hop] at h
      simp at h
    · rw [hop] at h
      cases op <;> dsimp only at h ⊢
      case LUI => simp [advance] at h
      case LOAD => simp [advance] at h
      case STORE => simp [advance] at h
      case AUIPC => simp [advance] at h
      case JAL => simp at h
      case JALR => simp at h
      case MISC => simp [advance] at h
      case OP => split at h <;> (try split at h) <;> simp_all [advance]
      case IMM => split at h <;> simp_all [advance]
      case BRANCH => split at h <;> (try split at h) <;> simp_all [advance]
      case SYSTEM =>
        split at h <;> (try split at h) <;> (try split at h) <;> (try split at h) <;>
          (try split at h) <;> simp_all [advance, IsHaltIns]

/-- Helper: fetching the CSRRW-to-3072 instruction makes the step return
HALT with the state untouched. -/
theorem step_halt_backward (s : State) (ins : Nat)
    (hr : r32 s.memory (rfGet s.regfile PC) = .ok ins) (hi : IsHaltIns ins) :
    step s = (Except.ok false, s) := by
  obtain ⟨hop, h3, hcsr⟩ := hi
  unfold step
  rw [hr]
  dsimp only
  rw [hop]
  dsimp only
  rw [h3, hcsr]
  simp

/-- C5: a step returns HALT exactly when the fetched word decodes to the
SYSTEM opcode with funct3 = CSRRW and CSR field (bits [31:20]) 3072; any
other step that completes without a fatal error returns CONTINUE. -/
theorem step_halt_iff (s : State) (b : Bool) (h : (step s).1 = Except.ok b) :
    b = false ↔ ∃ ins, r32 s.memory (rfGet s.regfile PC) = .ok ins ∧ IsHaltIns ins := by
  constructor
  · intro hb
    subst hb
    exact (step_halt_forward s h).2
  · rintro ⟨ins, hr, hi⟩
    have hs := step_halt_backward s ins hr hi
    rw [hs] at h
    exact (Except.ok.inj h).symm

theorem step_halt_iff_witness :
    (false = false ↔ ∃ ins,
      r32 (State.mk ((List.replicate 33 0).set 32 0x80000000) [0x73, 0x10, 0x00, 0xC0]).memory
        (rfGet (State.mk ((List.replicate 33 0).set 32 0x80000000)
          [0x73, 0x10, 0x00, 0xC0]).regfile PC) = .ok ins ∧ IsHaltIns ins) :=
  step_halt_iff ⟨(List.replicate 33 0).set 32 0x80000000, [0x73, 0x10, 0x00, 0xC0]⟩ false
    (by decide)

/-- C10: whenever a step returns HALT, the entire architectural state is
unchanged: no general-purpose register is written and PC still holds the
address of the halting instruction. -/
theorem step_halt_preserves_state (s s' : State) (h : step s = (Except.ok false, s')) :
    s' = s := by
  have h1 : (step s).1 = Except.ok false := by rw [h]
  have h2 := (step_halt_forward s h1).1
  rw [h] at h2
  exact h2

theorem step_halt_preserves_state_witness :
    State.mk ((List.replicate 33 0).set 32 0x80000000) [0x73, 0x10, 0x00, 0xC0] =
      State.mk ((List.replicate 33 0).set 32 0x80000000) [0x73, 0x10, 0x00, 0xC0] :=
  step_halt_preserves_state
    ⟨(List.replicate 33 0).set 32 0x80000000, [0x73, 0x10, 0x00, 0xC0]⟩
    ⟨(List.replicate 33 0).set 32 0x80000000, [0x73, 0x10, 0x00, 0xC0]⟩
    (by decide)

/-- C1 (amended): for every AUIPC instruction with rd ≠ 0, one step sets rd
to (PC + imm) mod 2^32 where imm is the raw 12-bit field from bits [31:20]
of the word (`gibi ins 31 20`, cpu.py line 160 — not the 20-bit field from
bits [31:12]), then advances PC by 4; memory is untouched. -/
theorem auipc_step (s : State) (ins : Nat)
    (hlen : s.regfile.length = 33)
    (hf : r32 s.memory (rfGet s.regfile PC) = .ok ins)
    (hop : Ops.decode (gibi ins 6 0) = some .AUIPC)
    (hrd : gibi ins 11 7 ≠ 0) :
    (step s).1 = .ok true ∧
    rfGet (step s).2.regfile (gibi ins 11 7) = (rfGet s.regfile PC + gibi ins 31 20) % 2 ^ 32 ∧
    rfGet (step s).2.regfile PC = (rfGet s.regfile PC + 4) % 2 ^ 32 ∧
    (step s).2.memory = s.memory := by
  have hrdlt : gibi ins 11 7 < 32 := gibi_11_7_lt ins
  have hPC : PC = 32 := rfl
  unfold step
  rw [hf]
  dsimp only
  rw [hop]
  dsimp only [advance]
  refine ⟨rfl, ?_, ?_, rfl⟩
  · rw [rfGet_rfSet_ne _ PC _ _ (by omega)]
    rw [rfGet_rfSet_self _ _ _ hrd (by omega)]
    omega
  · rw [rfGet_rfSet_self _ PC _ (by decide) (by rw [rfSet_length]; omega)]
    rw [rfGet_rfSet_ne _ _ _ _ (by omega)]
    omega

theorem auipc_step_witness :
    (step ⟨(List.replicate 33 0).set 32 0x80000000, [0x97, 0x00, 0x10, 0x00]⟩).1 = .ok true ∧
    rfGet (step ⟨(List.replicate 33 0).set 32 0x80000000,
        [0x97, 0x00, 0x10, 0x00]⟩).2.regfile (gibi 0x00100097 11 7) =
      (rfGet ((List.replicate 33 0).set 32 0x80000000) PC + gibi 0x00100097 31 20) % 2 ^ 32 ∧
    rfGet (step ⟨(List.replicate 33 0).set 32 0x80000000,
        [0x97, 0x00, 0x10, 0x00]⟩).2.regfile PC =
      (rfGet ((List.replicate 33 0).set 32 0x80000000) PC + 4) % 2 ^ 32 ∧
    (step ⟨(List.replicate 33 0).set 32 0x80000000,
        [0x97, 0x00, 0x10, 0x00]⟩).2.memory = [0x97, 0x00, 0x10, 0x00] :=
  auipc_step ⟨(List.replicate 33 0).set 32 0x80000000, [0x97, 0x00, 0x10, 0x00]⟩ 0x00100097
    (by decide) (by decide) (by decide) (by decide)

/-- C2 (amended): for every JALR instruction with rd ≠ 0, one step sets rd
to (PC + 4) mod 2^32 and then sets PC to rs1's value *after* the rd write,
plus the sign-extended 12-bit immediate.  When rd ≠ rs1 this is the
pre-step rs1 value, as the original claim states; when rd = rs1 (≠ 0) the
value read is (PC + 4) mod 2^32, because cpu.py line 149 writes rd before
line 150 reads rs1. -/
theorem jalr_step (s : State) (ins : Nat)
    (hlen : s.regfile.length = 33)
    (hf : r32 s.memory (rfGet s.regfile PC) = .ok ins)
    (hop : Ops.decode (gibi ins 6 0) = some .JALR)
    (hrd : gibi ins 11 7 ≠ 0) :
    (step s).1 = .ok true ∧
    rfGet (step s).2.regfile (gibi ins 11 7) = (rfGet s.regfile PC + 4) % 2 ^ 32 ∧
    (gibi ins 11 7 ≠ gibi ins 19 15 →
      (rfGet (step s).2.regfile PC : Int) =
        ((rfGet s.regfile (gibi ins 19 15) : Int) + sign_extend (gibi ins 31 20) 12) % 2 ^ 32) ∧
    (gibi ins 11 7 = gibi ins 19 15 →
      (rfGet (step s).2.regfile PC : Int) =
        (((rfGet s.regfile PC + 4) % 2 ^ 32 : Nat) +
          sign_extend (gibi ins 31 20) 12) % 2 ^ 32) ∧
    (step s).2.memory = s.memory := by
  have hrdlt : gibi ins 11 7 < 32 := gibi_11_7_lt ins
  have hPC : PC = 32 := rfl
  unfold step
  rw [hf]
  dsimp only
  rw [hop]
  dsimp only
  refine ⟨rfl, ?_, ?_, ?_, rfl⟩
  · rw [rfGet_rfSet_ne _ PC _ _ (by omega)]
    rw [rfGet_rfSet_self _ _ _ hrd (by omega)]
    omega
  · intro hne
    rw [rfGet_rfSet_self _ PC _ (by decide) (by rw [rfSet_length]; omega)]
    rw [rfGet_rfSet_ne _ _ _ _ (fun hc => hne hc.symm)]
    have hemod : (0 : Int) ≤
        ((rfGet s.regfile (gibi ins 19 15) : Int) + sign_extend (gibi ins 31 20) 12) % 2 ^ 32 :=
      Int.emod_nonneg _ (by norm_num)
    omega
  · intro heq
    rw [rfGet_rfSet_self _ PC _ (by decide) (by rw [rfSet_length]; omega)]
    rw [← heq, rfGet_rfSet_self _ _ _ hrd (by omega)]
    have hemod : (0 : Int) ≤
        ((((rfGet s.regfile PC : Int) + 4) % 2 ^ 32).toNat +
          sign_extend (gibi ins 31 20) 12) % 2 ^ 32 :=
      Int.emod_nonneg _ (by norm_num)
    omega

/-- Concrete JALR (word 0x000100E7: rd = x1, rs1 = x2, imm = 0) at
PC = 0x80000000 with x2 = 100, for the C2 witness. -/
def jalrExample : State :=
  ⟨((List.replicate 33 0).set 2 100).set 32 0x80000000, [0xE7, 0x00, 0x01, 0x00]⟩

theorem jalr_step_witness :
    (step jalrExample).1 = .ok true ∧
    rfGet (step jalrExample).2.regfile (gibi 0x000100E7 11 7) =
      (rfGet jalrExample.regfile PC + 4) % 2 ^ 32 ∧
    (rfGet (step jalrExample).2.regfile PC : Int) =
      ((rfGet jalrExample.regfile (gibi 0x000100E7 19 15) : Int) +
        sign_extend (gibi 0x000100E7 31 20) 12) % 2 ^ 32 :=
  ⟨(jalr_step jalrExample 0x000100E7 (by decide) (by decide) (by decide) (by decide)).1,
   (jalr_step jalrExample 0x000100E7 (by decide) (by decide) (by decide) (by decide)).2.1,
   (jalr_step jalrExample 0x000100E7 (by decide) (by decide) (by decide) (by decide)).2.2.1
     (by decide)⟩

/-- Helper: indexing the 4-byte slice `memory[addr:addr+4]` reads the
underlying buffer. -/
theorem getD_take_drop (mem : List Nat) (a i : Nat) (hi : i < 4) :
    ((mem.drop a).take 4).getD i 0 = mem.getD (a + i) 0 := by
  simp [List.getD_eq_getElem?_getD, List.getElem?_take_of_lt hi, List.getElem?_drop]

/-- C6 (amended): `r32` raises the out-of-bounds error exactly when the
address *itself* (not address+3) falls outside [0x80000000, 0x80000000 +
65536); for the last three in-range addresses (where address+3 is outside)
it instead fails with the 4-byte-buffer (`struct.error`) failure; when all
four bytes are in range it returns the little-endian value of the 4 bytes
at the address. -/
theorem r32_spec (mem : List Nat) (addr : Nat) (hlen : mem.length = 65536) :
    (r32 mem addr = .error .oob ↔ addr < 0x80000000 ∨ 0x80000000 + 65536 ≤ addr) ∧
    (0x80000000 + 65533 ≤ addr → addr < 0x80000000 + 65536 →
      r32 mem addr = .error .structError) ∧
    (0x80000000 ≤ addr → addr + 3 < 0x80000000 + 65536 →
      r32 mem addr = .ok (mem.getD (addr - 0x80000000) 0 +
        2 ^ 8 * mem.getD (addr - 0x80000000 + 1) 0 +
        2 ^ 16 * mem.getD (addr - 0x80000000 + 2) 0 +
        2 ^ 24 * mem.getD (addr - 0x80000000 + 3) 0)) := by
  have hM : MEMBASE = 0x80000000 := rfl
  refine ⟨?_, ?_, ?_⟩
  · unfold r32
    split
    · rename_i hc
      exact iff_of_true rfl (by omega)
    · rename_i hc
      dsimp only
      split
      · exact iff_of_false (by simp) (by omega)
      · exact iff_of_false (by simp) (by omega)
  · intro h1 h2
    unfold r32
    rw [if_neg (by omega)]
    dsimp only
    rw [if_neg (by simp only [List.length_take, List.length_drop, hlen]; omega)]
  · intro h1 h2
    have ha : ((addr : Int) - (MEMBASE : Int)).toNat = addr - 0x80000000 := by omega
    unfold r32
    rw [if_neg (by omega)]
    dsimp only
    rw [if_pos (by simp only [List.length_take, List.length_drop, hlen]; omega)]
    rw [ha, getD_take_drop mem _ 0 (by norm_num), getD_take_drop mem _ 1 (by norm_num),
      getD_take_drop mem _ 2 (by norm_num), getD_take_drop mem _ 3 (by norm_num)]
    norm_num

theorem r32_spec_witness :
    r32 (List.replicate 65536 0) 0x80000000 =
      .ok ((List.replicate 65536 0).getD (0x80000000 - 0x80000000) 0 +
        2 ^ 8 * (List.replicate 65536 0).getD (0x80000000 - 0x80000000 + 1) 0 +
        2 ^ 16 * (List.replicate 65536 0).getD (0x80000000 - 0x80000000 + 2) 0 +
        2 ^ 24 * (List.replicate 65536 0).getD (0x80000000 - 0x80000000 + 3) 0) :=
  (r32_spec (List.replicate 65536 0) 0x80000000 (by simp only [List.length_replicate])).2.2
    (by norm_num) (by norm_num)

/-- C6 counterexample: address 0x8000FFFE is in the mapped region but
0x8000FFFE + 3 is not; the claim says this read fails with the
out-of-bounds error, yet the code only bounds-checks the start address and
fails differently, with the short-buffer (`struct.error`) failure. -/
theorem r32_claim_counterexample :
    r32 (List.replicate 65536 0) 0x8000FFFE = .error .structError ∧
    (0x80000000 : Nat) ≤ 0x8000FFFE ∧ (0x80000000 : Nat) + 65536 ≤ 0x8000FFFE + 3 ∧
    MemErr.structError ≠ MemErr.oob := by
  refine ⟨?_, by norm_num, by norm_num, by decide⟩
  have ht : ((0x8000FFFE : Nat) : Int) - ((MEMBASE : Nat) : Int) = (65534 : Int) := by
    norm_num [MEMBASE]
  unfold r32
  rw [if_neg (by rw [ht]; simp only [List.length_replicate]; norm_num)]
  dsimp only
  rw [if_neg (by
    rw [ht]
    simp only [Int.toNat_ofNat, List.drop_replicate, List.take_replicate,
      List.length_replicate]
    omega)]

/-- C7 (amended): `write` fails exactly when the start address is outside
[0x80000000, 0x80000000 + size); the end of the write is not checked.  When
the whole span fits, the span is replaced byte-for-byte, everything outside
it is unchanged and the size is preserved; but when the start is in range
and the span would extend past the end, the write *succeeds* and grows the
region to (address - base) + len(bytes) bytes instead of failing. -/
theorem ws_spec (mem dat : List Nat) (addr : Nat) :
    (ws mem dat addr = none ↔ addr < 0x80000000 ∨ 0x80000000 + mem.length ≤ addr) ∧
    (0x80000000 ≤ addr → addr < 0x80000000 + mem.length →
      addr - 0x80000000 + dat.length ≤ mem.length →
      ∃ m', ws mem dat addr = some m' ∧
        m'.length = mem.length ∧
        m'.take (addr - 0x80000000) = mem.take (addr - 0x80000000) ∧
        (m'.drop (addr - 0x80000000)).take dat.length = dat ∧
        m'.drop (addr - 0x80000000 + dat.length) =
          mem.drop (addr - 0x80000000 + dat.length)) ∧
    (0x80000000 ≤ addr → addr < 0x80000000 + mem.length →
      mem.length < addr - 0x80000000 + dat.length →
      ∃ m', ws mem dat addr = some m' ∧ m'.length = addr - 0x80000000 + dat.length) := by
  have hM : MEMBASE = 0x80000000 := rfl
  refine ⟨?_, ?_, ?_⟩
  · unfold ws
    split
    · rename_i hc
      exact iff_of_false (by simp) (by omega)
    · rename_i hc
      exact iff_of_true rfl (by omega)
  · intro h1 h0 h2
    have ha : ((addr : Int) - (MEMBASE : Int)).toNat = addr - 0x80000000 := by omega
    have hX : (mem.take (addr - 0x80000000)).length = addr - 0x80000000 := by
      simp only [List.length_take]
      omega
    unfold ws
    rw [if_pos (by omega)]
    rw [ha]
    refine ⟨_, rfl, ?_, ?_, ?_, ?_⟩
    · simp only [List.length_append, List.length_take, List.length_drop]
      omega
    · rw [List.append_assoc, List.take_left' hX]
    · rw [List.append_assoc, List.drop_left' hX, List.take_left' rfl]
    · rw [List.append_assoc, ← List.drop_drop, List.drop_left' hX, List.drop_left' rfl]
  · intro h1 h0 h3
    have ha : ((addr : Int) - (MEMBASE : Int)).toNat = addr - 0x80000000 := by omega
    unfold ws
    rw [if_pos (by omega)]
    rw [ha]
    refine ⟨_, rfl, ?_⟩
    simp only [List.length_append, List.length_take, List.length_drop]
    omega

theorem ws_spec_witness :
    ∃ m', ws [5, 6, 7, 8] [1, 2] 0x80000001 = some m' ∧
      m'.length = ([5, 6, 7, 8] : List Nat).length ∧
      m'.take (0x80000001 - 0x80000000) =
        ([5, 6, 7, 8] : List Nat).take (0x80000001 - 0x80000000) ∧
      (m'.drop (0x80000001 - 0x80000000)).take ([1, 2] : List Nat).length = [1, 2] ∧
      m'.drop (0x80000001 - 0x80000000 + ([1, 2] : List Nat).length) =
        ([5, 6, 7, 8] : List Nat).drop (0x80000001 - 0x80000000 + ([1, 2] : List Nat).length) :=
  (ws_spec [5, 6, 7, 8] [1, 2] 0x80000001).2.1 (by decide) (by decide) (by decide)

/-- C7 counterexample: a 2-byte write at 0x8000FFFF (the last mapped byte)
extends one byte past the region's end; the claim says this fails the
assertion, but the code's assertion only checks the start address, so the
write succeeds and the region grows from 65536 to 65537 bytes. -/
theorem ws_claim_counterexample :
    Option.map List.length (ws (List.replicate 65536 0) [1, 2] 0x8000FFFF) = some 65537 ∧
    (0x80000000 : Nat) ≤ 0x8000FFFF ∧ (0x8000FFFF : Nat) < 0x80000000 + 65536 ∧
    (0x80000000 : Nat) + 65536 < 0x8000FFFF + 2 := by
  refine ⟨?_, by norm_num, by norm_num, by norm_num⟩
  have ht : ((0x8000FFFF : Nat) : Int) - ((MEMBASE : Nat) : Int) = (65535 : Int) := by
    norm_num [MEMBASE]
  unfold ws
  rw [if_pos (by rw [ht]; simp only [List.length_replicate]; norm_num)]
  rw [ht]
  rw [Option.map_some']
  have htn : ((65535 : Int)).toNat = 65535 := rfl
  rw [htn]
  rw [List.length_append, List.length_append, List.length_take, List.length_drop,
    List.length_replicate]
  norm_num

end TwitchCore
